import Mathlib

/-!
Shallow embedding of the persistence / synchronization layer of the
YouTube-Channel-Analyzer repository: the data model (`StoredConfig`,
`SavedSession`, `AnalysisState`), the session-library merge operations
(cloud sync and import), the local/cloud state coordinator of the App
component, the API-key rotation helper, the ISO-8601 duration formatter,
the debounced remote flush, and the JSON export/import round trip.

Machine-level conventions: `savedAt` is an ISO date string in the source,
compared through `new Date(...)`; it is modelled as a `Nat` timestamp so
that the `>` comparison on dates is the `>` on `Nat`.  JS `Map` semantics
(insertion order preserved, `set` on an existing key replaces the value in
place) are modelled by an association list with a recursive `mapSet`.
-/

namespace YT

/-- Theme enum from types.ts: 'blue' | 'green' | 'orange' | 'red' | 'purple'. -/
inductive Theme where
  | blue | green | orange | red | purple
deriving DecidableEq, Repr

/-- AiProvider from types.ts: 'gemini' | 'openai'. -/
inductive AiProvider where
  | gemini | openai
deriving DecidableEq, Repr

/-- The `{ key: string }` record nested under youtube/gemini/openai in StoredConfig. -/
structure ApiKeyConfig where
  key : String
deriving DecidableEq, Repr

/-- StoredConfig from types.ts. -/
structure StoredConfig where
  theme : Theme
  aiProvider : AiProvider
  aiModel : String
  youtube : ApiKeyConfig
  gemini : ApiKeyConfig
  openai : ApiKeyConfig
deriving DecidableEq, Repr

/-- A possibly-partial config record as stored in the cloud `app_settings`
    column; each field may be absent.  `{ ...initialConfig, ...cloudData.app_settings }`
    replaces exactly the fields that are present. -/
structure PartialConfig where
  theme : Option Theme
  aiProvider : Option AiProvider
  aiModel : Option String
  youtube : Option ApiKeyConfig
  gemini : Option ApiKeyConfig
  openai : Option ApiKeyConfig
deriving DecidableEq, Repr

/-- AnalysisState from types.ts. -/
structure AnalysisState where
  isLoading : Bool
  error : Option String
  result : String
  isComplete : Bool
deriving DecidableEq, Repr

/-- ChatMessage from types.ts (role: 'user' | 'model'). -/
inductive ChatRole where
  | user | model
deriving DecidableEq, Repr

structure ChatMessage where
  role : ChatRole
  content : String
deriving DecidableEq, Repr

/-- The video fields read by the operations embedded here
    (export, CSV building, duration formatting). -/
structure VideoSnippet where
  publishedAt : String
  title : String
deriving DecidableEq, Repr

structure VideoStatistics where
  viewCount : String
  likeCount : String
deriving DecidableEq, Repr

structure VideoContentDetails where
  duration : String
deriving DecidableEq, Repr

structure Video where
  id : String
  snippet : VideoSnippet
  statistics : VideoStatistics
  contentDetails : VideoContentDetails
deriving DecidableEq, Repr

/-- The ChannelInfo fields read by the operations embedded here. -/
structure ChannelInfo where
  id : String
  title : String
  subscriberCount : String
  videoCount : String
deriving DecidableEq, Repr

/-- SavedSession from types.ts.  `savedAt` is an ISO date string in the
    source; modelled as a Nat timestamp (Date comparison = Nat comparison). -/
structure SavedSession where
  id : String
  savedAt : Nat
  channelInfo : ChannelInfo
  videos : List Video
  nextPageToken : Option String
  brainstormMessages : Option (List ChatMessage)
deriving DecidableEq, Repr

/-- UserData from types.ts: the single keyed cloud record
    `{ app_settings, library_sessions, analysis_state }`.  Each field can be
    absent in a stored row: the code applies `|| []`, `|| initialAnalysisState`
    and `{ ...initialConfig, ... }` defaults on read. -/
structure UserData where
  app_settings : PartialConfig
  library_sessions : Option (List SavedSession)
  analysis_state : Option AnalysisState
deriving DecidableEq, Repr

/-- initialConfig constant from App.tsx. -/
def initialConfig : StoredConfig :=
  { theme := .blue
    aiProvider := .gemini
    aiModel := "gemini-2.5-pro"
    youtube := { key := "" }
    gemini := { key := "" }
    openai := { key := "" } }

/-- initialAnalysisState constant from App.tsx. -/
def initialAnalysisState : AnalysisState :=
  { isLoading := false, error := none, result := "", isComplete := false }

/-- The object spread `{ ...initialConfig, ...partial }`: every field present
    in `p` overrides the corresponding field of `base`. -/
def spreadConfig (base : StoredConfig) (p : PartialConfig) : StoredConfig :=
  { theme := p.theme.getD base.theme
    aiProvider := p.aiProvider.getD base.aiProvider
    aiModel := p.aiModel.getD base.aiModel
    youtube := p.youtube.getD base.youtube
    gemini := p.gemini.getD base.gemini
    openai := p.openai.getD base.openai }

/-! ## JS `Map<string, SavedSession>` model

The merge code builds a `Map`, inserts sessions keyed by `session.id`, and
reads it back with `Array.from(map.values())`.  A JS Map preserves insertion
order and `set` on an existing key replaces the value in place. -/

abbrev SessionMap := List (String × SavedSession)

/-- `map.get(k)`. -/
def mapGet : SessionMap → String → Option SavedSession
  | [], _ => none
  | p :: m, k => if p.1 = k then some p.2 else mapGet m k

/-- `map.set(k, v)`: replace in place if the key exists, else append. -/
def mapSet : SessionMap → String → SavedSession → SessionMap
  | [], k, v => [(k, v)]
  | p :: m, k, v => if p.1 = k then (k, v) :: m else p :: mapSet m k v

/-- `Array.from(map.values())`. -/
def mapValues (m : SessionMap) : List SavedSession := m.map Prod.snd

/-- `sessions.forEach(s => map.set(s.id, s))`. -/
def insertAll (m : SessionMap) (sessions : List SavedSession) : SessionMap :=
  sessions.foldl (fun m s => mapSet m s.id s) m

/-- One step of the cloud-sync merge loop of syncData (src/unnamed/part_000,
    lines 326-331): `const existing = map.get(s.id);
    if (!existing || new Date(s.savedAt) > new Date(existing.savedAt)) map.set(s.id, s)`. -/
def insertCloud (m : SessionMap) (s : SavedSession) : SessionMap :=
  match mapGet m s.id with
  | none => mapSet m s.id s
  | some existing => if existing.savedAt < s.savedAt then mapSet m s.id s else m

/-- The session merge performed by syncData in src/unnamed/part_000
    (lines 320-333): local sessions are inserted first, then each cloud
    session replaces the entry with the same id only if its `savedAt` is
    strictly newer. -/
def syncDataMergeSessions (localSessions cloudSessions : List SavedSession) :
    List SavedSession :=
  mapValues (cloudSessions.foldl insertCloud (insertAll [] localSessions))

/-- The merge performed by handleImportSessions (src/unnamed/part_001,
    lines 670-674): existing sessions inserted first, then every imported
    session unconditionally overwrites the entry with the same id. -/
def importMergeSessions (savedSessions importedSessions : List SavedSession) :
    List SavedSession :=
  mapValues (insertAll (insertAll [] savedSessions) importedSessions)

/-- `l.find(s => s.id = i)`: the entry of a session list with a given id. -/
def findId (l : List SavedSession) (i : String) : Option SavedSession :=
  l.find? (fun s => s.id = i)

/-- The data-model invariant that channel ids are unique within a collection. -/
def idsNodup (l : List SavedSession) : Prop := (l.map (fun s => s.id)).Nodup

instance (l : List SavedSession) : Decidable (idsNodup l) := by
  unfold idsNodup; infer_instance

/-- First-result choice on optional sessions: the match
    `match a with | some x => some x | none => b`. -/
def orO (a b : Option SavedSession) : Option SavedSession :=
  match a with
  | some x => some x
  | none => b

/-- Conflict resolution of the part_000 cloud-sync merge on a shared id:
    the cloud entry `b` replaces the local entry `a` only when strictly newer. -/
def newerWins (a b : Option SavedSession) : Option SavedSession :=
  match a, b with
  | none, none => none
  | some x, none => some x
  | none, some y => some y
  | some x, some y => some (if x.savedAt < y.savedAt then y else x)

/-- The invariant that each map entry is keyed by its session's id. -/
def mapWF (m : SessionMap) : Prop := ∀ p ∈ m, p.2.id = p.1

/-- A concrete channel record, used to build concrete witnesses. -/
def sampleChannelInfo (i : String) : ChannelInfo :=
  { id := i, title := "Kênh " ++ i, subscriberCount := "100", videoCount := "10" }

/-- A concrete session with a given id and timestamp. -/
def sampleSession (i : String) (t : Nat) : SavedSession :=
  { id := i, savedAt := t, channelInfo := sampleChannelInfo i,
    videos := [], nextPageToken := none, brainstormMessages := none }

/-! ## App component state coordinator (src/unnamed/part_001) -/

/-- The user identity carried by auth session events, modelled by its id. -/
abbrev AuthUser := String

/-- The App component state relevant to the local/cloud coordinator:
    the three localStorage-backed stores, the three in-memory synced
    mirrors (used only while logged in), the current user and the
    one-time-reconciliation flag (lines 257-268). -/
structure AppState where
  localAppConfig : StoredConfig
  localSavedSessions : List SavedSession
  localAnalysisState : AnalysisState
  syncedAppConfig : Option StoredConfig
  syncedSavedSessions : Option (List SavedSession)
  syncedAnalysisState : Option AnalysisState
  user : Option AuthUser
  isDataSynced : Bool
deriving DecidableEq, Repr

def isLoggedIn (st : AppState) : Bool := st.user.isSome

/-- Derived read (line 273): `isLoggedIn ? (syncedAppConfig ?? initialConfig) : localAppConfig`. -/
def appConfig (st : AppState) : StoredConfig :=
  if isLoggedIn st then st.syncedAppConfig.getD initialConfig else st.localAppConfig

/-- Derived read (line 274). -/
def savedSessions (st : AppState) : List SavedSession :=
  if isLoggedIn st then st.syncedSavedSessions.getD [] else st.localSavedSessions

/-- Derived read (line 275). -/
def analysisState (st : AppState) : AnalysisState :=
  if isLoggedIn st then st.syncedAnalysisState.getD initialAnalysisState
  else st.localAnalysisState

/-- Unified setter (lines 278-284); the React SetStateAction (plain value or
    updater function) is modelled as an updater function. -/
def setAppConfig (st : AppState) (f : StoredConfig → StoredConfig) : AppState :=
  if isLoggedIn st then
    { st with syncedAppConfig := some (f (st.syncedAppConfig.getD initialConfig)) }
  else { st with localAppConfig := f st.localAppConfig }

/-- Unified setter (lines 286-292). -/
def setSavedSessions (st : AppState) (f : List SavedSession → List SavedSession) :
    AppState :=
  if isLoggedIn st then
    { st with syncedSavedSessions := some (f (st.syncedSavedSessions.getD [])) }
  else { st with localSavedSessions := f st.localSavedSessions }

/-- Unified setter (lines 294-300). -/
def setAnalysisState (st : AppState) (f : AnalysisState → AnalysisState) : AppState :=
  if isLoggedIn st then
    let newSt := f (st.syncedAnalysisState.getD initialAnalysisState)
    { st with syncedAnalysisState := some newSt }
  else { st with localAnalysisState := f st.localAnalysisState }

/-- A write through one of the three unified setters. -/
inductive AppWrite where
  | config (f : StoredConfig → StoredConfig)
  | sessions (f : List SavedSession → List SavedSession)
  | analysis (f : AnalysisState → AnalysisState)

def applyWrite (st : AppState) : AppWrite → AppState
  | .config f => setAppConfig st f
  | .sessions f => setSavedSessions st f
  | .analysis f => setAnalysisState st f

/-- `window.location.reload()`: the in-memory component state is
    reinitialized; the localStorage-backed stores persist. -/
def reload (st : AppState) : AppState :=
  { localAppConfig := st.localAppConfig
    localSavedSessions := st.localSavedSessions
    localAnalysisState := st.localAnalysisState
    syncedAppConfig := none
    syncedSavedSessions := none
    syncedAnalysisState := none
    user := none
    isDataSynced := false }

/-- The onAuthStateChange handler (src/unnamed/part_001, lines 326-345):
    a logged-in user observing a null session reloads the page; otherwise the
    user is stored, and a null user (sign-out in another tab) clears the
    synced state and the reconciliation flag. -/
def onAuthChange (st : AppState) (currentUser : Option AuthUser) : AppState :=
  if st.user.isSome && currentUser.isNone then reload st
  else
    let st1 := { st with user := currentUser }
    if currentUser.isNone then
      { st1 with isDataSynced := false, syncedAppConfig := none,
                 syncedSavedSessions := none, syncedAnalysisState := none }
    else st1

/-- syncData of src/unnamed/part_001 (lines 348-367): the one-time
    reconciliation when a user is present and not yet synced.  If a cloud
    record exists, the cloud is the source of truth with no merge; otherwise
    the local data seeds the cloud mirror. -/
def syncData (st : AppState) (cloudData : Option UserData) : AppState :=
  if st.user.isSome && !st.isDataSynced then
    match cloudData with
    | some cd =>
      { st with
        syncedSavedSessions := some (cd.library_sessions.getD [])
        syncedAnalysisState := some (cd.analysis_state.getD initialAnalysisState)
        syncedAppConfig := some (spreadConfig initialConfig cd.app_settings)
        isDataSynced := true }
    | none =>
      { st with
        syncedSavedSessions := some st.localSavedSessions
        syncedAnalysisState := some st.localAnalysisState
        syncedAppConfig := some st.localAppConfig
        isDataSynced := true }
  else st

/-- A concrete logged-in, not-yet-synced state for witnesses. -/
def witnessLocalState : AppState :=
  { localAppConfig := initialConfig
    localSavedSessions := [sampleSession "local" 1]
    localAnalysisState := initialAnalysisState
    syncedAppConfig := none
    syncedSavedSessions := none
    syncedAnalysisState := none
    user := some "u1"
    isDataSynced := false }

/-- A concrete cloud record for witnesses: partial settings, one session. -/
def witnessCloudData : UserData :=
  { app_settings :=
      { theme := some .green, aiProvider := none, aiModel := none,
        youtube := none, gemini := none, openai := none }
    library_sessions := some [sampleSession "c" 5]
    analysis_state := none }

/-! ## API key rotation (src/services/geminiService.ts) -/

def isKeySep (c : Char) : Bool := c = '\n' || c = ','

/-- `keysString.split(/[\n,]+/)` modelled as a split on single separators:
    the regex collapses runs of separators, which only changes the number of
    empty pieces, and every empty piece is dropped by the later
    `.filter(Boolean)`, so the resulting key list is identical. -/
def splitKeysAux : List Char → List Char → List (List Char)
  | [], acc => [acc.reverse]
  | c :: cs, acc =>
    if isKeySep c then acc.reverse :: splitKeysAux cs []
    else splitKeysAux cs (c :: acc)

/-- JS whitespace for `.trim()` restricted to the characters that occur in
    key blobs (space, tab, CR, LF). -/
def isJsSpace (c : Char) : Bool := c = ' ' || c = '\t' || c = '\n' || c = '\r'

def trimChars (l : List Char) : List Char :=
  ((l.dropWhile isJsSpace).reverse.dropWhile isJsSpace).reverse

/-- `keysString.split(/[\n,]+/).map(k => k.trim()).filter(Boolean)`
    (geminiService.ts line 8). -/
def parseKeys (keysString : String) : List String :=
  ((splitKeysAux keysString.data []).map
    (fun l => String.mk (trimChars l))).filter (fun k => k != "")

def noKeysMsg : String := "Không có Gemini API key nào được cung cấp."

def allFailedMsg (lastErrorMsg : String) : String :=
  "Tất cả API key của Gemini đều không hợp lệ. Lỗi cuối cùng: " ++ lastErrorMsg

/-- The for-loop of executeWithKeyRotation threading lastError.  The initial
    `null` lastError is modelled as ""; it is read only when the key list is
    empty, which the caller excludes. -/
def rotateLoop {T : Type} (apiRequest : String → Except String T) :
    List String → String → Except String T
  | [], lastError => .error (allFailedMsg lastError)
  | k :: ks, _ =>
    match apiRequest k with
    | .ok r => .ok r
    | .error e => rotateLoop apiRequest ks e

/-- executeWithKeyRotation (geminiService.ts lines 4-25).  The async
    apiRequest is modelled as a function giving each key's outcome. -/
def executeWithKeyRotation {T : Type} (keysString : String)
    (apiRequest : String → Except String T) : Except String T :=
  let keys := parseKeys keysString
  if keys.length = 0 then .error noKeysMsg
  else rotateLoop apiRequest keys ""

/-- The last key of a nonempty key list, written head-and-tail. -/
def lastKey : String → List String → String
  | a, [] => a
  | _, b :: l => lastKey b l

/-- A concrete request environment for witnesses: only "k2valid" succeeds. -/
def reqW : String → Except String Nat :=
  fun k => if k = "k2valid" then .ok 2 else .error ("lỗi " ++ k)

/-! ## ISO-8601 duration formatter (src/utils/formatters.ts) -/

def digitsToNatAux : Nat → List Char → Nat
  | acc, [] => acc
  | acc, c :: cs => digitsToNatAux (acc * 10 + (c.toNat - '0'.toNat)) cs

/-- `parseInt` on a captured digit string. -/
def parseIntDigits (l : List Char) : Nat := digitsToNatAux 0 l

/-- One optional regex component `(?:(\d+)X)?` at the current position: a
    maximal nonempty digit run followed by the unit letter captures and
    advances past the letter; otherwise the group matches empty.
    (Backtracking to a shorter digit run can never succeed, because the
    character after a shorter run is a digit, not the unit letter.) -/
def tryComponent (unit : Char) (l : List Char) :
    Option (List Char) × List Char :=
  let ds := l.takeWhile Char.isDigit
  match l.drop ds.length with
  | c :: rest =>
    if ds.isEmpty then (none, l)
    else if c = unit then (some ds, rest) else (none, l)
  | [] => (none, l)

/-- `duration.match(/PT(?:(\d+)H)?(?:(\d+)M)?(?:(\d+)S)?/)`: the regex
    matches at a position iff "PT" occurs there (everything after "PT" is
    optional), so the leftmost match starts at the first occurrence of "PT".
    Returns the three capture groups, or none when the string has no "PT". -/
def matchDuration : List Char →
    Option (Option (List Char) × Option (List Char) × Option (List Char))
  | 'P' :: 'T' :: rest =>
    let (h, r1) := tryComponent 'H' rest
    let (m, r2) := tryComponent 'M' r1
    let (s, _) := tryComponent 'S' r2
    some (h, m, s)
  | _ :: rest => matchDuration rest
  | [] => none

/-- `num.toString().padStart(2, '0')`. -/
def formatNum2 (n : Nat) : String :=
  let s := toString n
  String.mk (List.replicate (2 - s.length) '0') ++ s

/-- parseISO8601Duration (src/utils/formatters.ts lines 1-19). -/
def parseISO8601Duration (duration : String) : String :=
  match matchDuration duration.data with
  | none => "00:00"
  | some (h, m, s) =>
    let hours := parseIntDigits (h.getD ['0'])
    let minutes := parseIntDigits (m.getD ['0'])
    let seconds := parseIntDigits (s.getD ['0'])
    if hours > 0 then
      formatNum2 hours ++ ":" ++ formatNum2 minutes ++ ":" ++ formatNum2 seconds
    else formatNum2 minutes ++ ":" ++ formatNum2 seconds

/-- A string matches no duration component when the regex either finds no
    "PT" at all or captures none of the three groups. -/
def matchesNoComponent (s : String) : Prop :=
  match matchDuration s.data with
  | none => True
  | some (h, m, sec) => h = none ∧ m = none ∧ sec = none

instance (s : String) : Decidable (matchesNoComponent s) := by
  unfold matchesNoComponent
  split
  · exact isTrue trivial
  · infer_instance

/-! ## Debounced remote flush (src/unnamed/part_001, lines 370-391) -/

/-- The record passed to saveUserData by the debounced effect (lines
    378-382): the three synced stores as they stand when the timer fires. -/
structure SyncedSnapshot where
  app_settings : Option StoredConfig
  library_sessions : Option (List SavedSession)
  analysis_state : Option AnalysisState
deriving DecidableEq, Repr

/-- The debounce mechanism's state: the pending timer (absolute fire time
    and the snapshot its callback will save) and the remote writes issued. -/
structure DebounceState where
  pending : Option (Nat × SyncedSnapshot)
  writes : List SyncedSnapshot
deriving DecidableEq, Repr

def debounceInit : DebounceState := { pending := none, writes := [] }

/-- One run of the debounced-save effect triggered at time `t` by an edit
    that leaves the synced state at snapshot `s`, while `user && isDataSynced`
    holds: a previously scheduled flush whose deadline has already passed has
    fired; the effect clears the previous timer (cleanup + clearTimeout) and
    schedules a flush of the current state 2000 ms from now. -/
def stepEdit (d : DebounceState) (t : Nat) (s : SyncedSnapshot) : DebounceState :=
  let fired : DebounceState :=
    match d.pending with
    | some (ft, snap) =>
      if ft ≤ t then { pending := none, writes := d.writes ++ [snap] }
      else { pending := none, writes := d.writes }
    | none => d
  { fired with pending := some (t + 2000, s) }

/-- Let the clock advance to time `t` with no further edits: the pending
    timer fires iff its deadline has been reached. -/
def flushAt (d : DebounceState) (t : Nat) : DebounceState :=
  match d.pending with
  | some (ft, snap) =>
    if ft ≤ t then { pending := none, writes := d.writes ++ [snap] } else d
  | none => d

def runEdits (d : DebounceState) (edits : List (Nat × SyncedSnapshot)) :
    DebounceState :=
  edits.foldl (fun d e => stepEdit d e.1 e.2) d

def lastEdit : (Nat × SyncedSnapshot) → List (Nat × SyncedSnapshot) →
    (Nat × SyncedSnapshot)
  | a, [] => a
  | _, b :: l => lastEdit b l

/-- A concrete snapshot for witnesses. -/
def sampleSnapshot (n : Nat) : SyncedSnapshot :=
  { app_settings := some initialConfig
    library_sessions := some [sampleSession "s" n]
    analysis_state := some initialAnalysisState }

/-! ## Competitive analysis start (src/unnamed/part_001 and
    src/components/CompetitiveAnalysisModal.tsx) -/

/-- The arguments of the performCompetitiveAnalysis provider request issued
    by handleStartCompetitiveAnalysis.  (The call also receives the fixed
    analysisInstructions JSON-template string constant, not recorded here.) -/
structure GeminiAnalysisCall where
  apiKeys : String
  model : String
  csvData : String
  channelNames : List String
deriving DecidableEq, Repr

def csvField (s : String) : String :=
  "\"" ++ s.replace "\"" "\"\"" ++ "\""

/-- One CSV row (lines 825-832), with `|| '0'` / `|| 'PT0S'` fallbacks for
    falsy (empty) fields. -/
def csvRow (channelTitle : String) (v : Video) : String :=
  String.intercalate ","
    [csvField channelTitle, csvField v.snippet.title, v.snippet.publishedAt,
     (if v.statistics.viewCount = "" then "0" else v.statistics.viewCount),
     (if v.statistics.likeCount = "" then "0" else v.statistics.likeCount),
     (if v.contentDetails.duration = "" then "PT0S" else v.contentDetails.duration)]

def csvHeaders : String :=
  String.intercalate ","
    ["Channel Name", "Video Title", "Publish Date", "View Count", "Likes",
     "Duration (ISO 8601)"]

def buildCsv (selectedSessions : List SavedSession) : String :=
  String.intercalate "\n"
    (csvHeaders ::
      (selectedSessions.map
        (fun s => s.videos.map (csvRow s.channelInfo.title))).flatten)

/-- handleStartCompetitiveAnalysis (src/unnamed/part_001, lines 804-854).
    The awaited provider outcome is a parameter; the second component is the
    provider request issued, if any. -/
def handleStartCompetitiveAnalysis (st : AppState)
    (selectedChannelIds : List String) (result : Except String String) :
    AppState × Option GeminiAnalysisCall :=
  if selectedChannelIds.length < 2 then (st, none)
  else if (appConfig st).aiProvider ≠ .gemini then
    (setAnalysisState st (fun _ =>
      { isLoading := false
        error := some "Tính năng này yêu cầu chọn một model của Gemini trong cài đặt API."
        result := ""
        isComplete := true }), none)
  else
    let st1 := setAnalysisState st (fun _ =>
      { isLoading := true, error := none, result := "", isComplete := false })
    let selectedSessions :=
      (savedSessions st).filter (fun s => selectedChannelIds.contains s.id)
    let call : GeminiAnalysisCall :=
      { apiKeys := (appConfig st).gemini.key
        model := (appConfig st).aiModel
        csvData := buildCsv selectedSessions
        channelNames := selectedSessions.map (fun s => s.channelInfo.title) }
    match result with
    | .ok r =>
      (setAnalysisState st1 (fun _ =>
        { isLoading := false, error := none, result := r, isComplete := true }),
       some call)
    | .error e =>
      (setAnalysisState st1 (fun _ =>
        { isLoading := false, error := some e, result := "", isComplete := true }),
       some call)

/-- handleStartAndClose of CompetitiveAnalysisModal (lines 218-226): the
    validation message shown, and whether onStartAnalysis/onClose ran. -/
def handleStartAndClose (selectedChannelIds : List String) :
    Option String × Bool :=
  if selectedChannelIds.length < 2 then
    (some "Vui lòng chọn ít nhất 2 kênh để phân tích.", false)
  else (none, true)

/-- The start button's disabled attribute (CompetitiveAnalysisModal line
    396): `disabled={selectedChannelIds.length < 2}`. -/
def startButtonDisabled (selectedChannelIds : List String) : Bool :=
  selectedChannelIds.length < 2

/-! ## JSON document model (export / import round trip)

handleExportJson serializes the session library with `JSON.stringify`; the
LibraryModal import path reads a file, applies `JSON.parse` and hands the
resulting array to handleImportSessions.  The JSON document is modelled as
an AST; stringify/parse is the identity on the document. -/

inductive Json where
  | str : String → Json
  | num : Nat → Json
  | jsonBool : Bool → Json
  | null : Json
  | arr : List Json → Json
  | obj : List (String × Json) → Json

/-- Field lookup in a JSON object. -/
def objGet : List (String × Json) → String → Option Json
  | [], _ => none
  | p :: fs, k => if p.1 = k then some p.2 else objGet fs k

def asStr : Json → Option String
  | .str s => some s
  | _ => none

def asNat : Json → Option Nat
  | .num n => some n
  | _ => none

/-- The untyped elementwise pass over a parsed JSON array, typed here as a
    decoder: every element must decode for the array to decode. -/
def decodeAll {α : Type} (f : Json → Option α) : List Json → Option (List α)
  | [] => some []
  | j :: js =>
    match f j, decodeAll f js with
    | some a, some as => some (a :: as)
    | _, _ => none

def chatRoleToJson : ChatRole → Json
  | .user => .str "user"
  | .model => .str "model"

def chatMessageToJson (msg : ChatMessage) : Json :=
  .obj [("role", chatRoleToJson msg.role), ("content", .str msg.content)]

def videoToJson (v : Video) : Json :=
  .obj [("id", .str v.id),
        ("snippet", .obj [("publishedAt", .str v.snippet.publishedAt),
                          ("title", .str v.snippet.title)]),
        ("statistics", .obj [("viewCount", .str v.statistics.viewCount),
                             ("likeCount", .str v.statistics.likeCount)]),
        ("contentDetails", .obj [("duration", .str v.contentDetails.duration)])]

def channelInfoToJson (c : ChannelInfo) : Json :=
  .obj [("id", .str c.id), ("title", .str c.title),
        ("subscriberCount", .str c.subscriberCount),
        ("videoCount", .str c.videoCount)]

/-- JSON.stringify omits fields holding `undefined`: the two optional session
    fields are emitted only when present. -/
def sessionToJson (s : SavedSession) : Json :=
  .obj ([("id", .str s.id), ("savedAt", .num s.savedAt),
         ("channelInfo", channelInfoToJson s.channelInfo),
         ("videos", .arr (s.videos.map videoToJson))]
    ++ (match s.nextPageToken with
        | some t => [("nextPageToken", .str t)]
        | none => [])
    ++ (match s.brainstormMessages with
        | some ms => [("brainstormMessages", .arr (ms.map chatMessageToJson))]
        | none => []))

/-- handleExportJson (src/unnamed/part_001, lines 727-750): aborts with an
    alert when the library is empty, else serializes the whole library. -/
def handleExportJson (sessions : List SavedSession) : Option Json :=
  if sessions.length = 0 then none
  else some (.arr (sessions.map sessionToJson))

def jsonToChatMessage (j : Json) : Option ChatMessage :=
  match j with
  | .obj fs =>
    match (objGet fs "role").bind asStr, (objGet fs "content").bind asStr with
    | some r, some c =>
      if r = "user" then some { role := .user, content := c }
      else if r = "model" then some { role := .model, content := c }
      else none
    | _, _ => none
  | _ => none

def jsonToVideo (j : Json) : Option Video :=
  match j with
  | .obj fs =>
    match (objGet fs "id").bind asStr, objGet fs "snippet",
          objGet fs "statistics", objGet fs "contentDetails" with
    | some i, some (.obj sn), some (.obj st), some (.obj cd) =>
      match (objGet sn "publishedAt").bind asStr, (objGet sn "title").bind asStr,
            (objGet st "viewCount").bind asStr, (objGet st "likeCount").bind asStr,
            (objGet cd "duration").bind asStr with
      | some pa, some ti, some vc, some lc, some du =>
        some { id := i, snippet := { publishedAt := pa, title := ti },
               statistics := { viewCount := vc, likeCount := lc },
               contentDetails := { duration := du } }
      | _, _, _, _, _ => none
    | _, _, _, _ => none
  | _ => none

def jsonToChannelInfo (j : Json) : Option ChannelInfo :=
  match j with
  | .obj fs =>
    match (objGet fs "id").bind asStr, (objGet fs "title").bind asStr,
          (objGet fs "subscriberCount").bind asStr,
          (objGet fs "videoCount").bind asStr with
    | some i, some t, some sc, some vc =>
      some { id := i, title := t, subscriberCount := sc, videoCount := vc }
    | _, _, _, _ => none
  | _ => none

def jsonToSession (j : Json) : Option SavedSession :=
  match j with
  | .obj fs =>
    match (objGet fs "id").bind asStr, (objGet fs "savedAt").bind asNat,
          (objGet fs "channelInfo").bind jsonToChannelInfo,
          objGet fs "videos" with
    | some i, some t, some ci, some (.arr vjs) =>
      match decodeAll jsonToVideo vjs with
      | some vs =>
        some { id := i, savedAt := t, channelInfo := ci, videos := vs
               nextPageToken := (objGet fs "nextPageToken").bind asStr
               brainstormMessages :=
                 match objGet fs "brainstormMessages" with
                 | some (.arr mjs) => decodeAll jsonToChatMessage mjs
                 | _ => none }
      | none => none
    | _, _, _, _ => none
  | _ => none

/-- The first-item shape validation of handleImportSessions
    (src/unnamed/part_001, lines 660-668): `typeof firstItem.id !== 'string'
    || typeof firstItem.channelInfo?.id !== 'string'
    || !Array.isArray(firstItem.videos)` rejects the file.  An empty array
    passes (the length-0 guard is skipped). -/
def importedFirstItemValid : List Json → Bool
  | [] => true
  | j :: _ =>
    match j with
    | .obj fs =>
      ((objGet fs "id").bind asStr).isSome &&
      (match objGet fs "channelInfo" with
       | some (.obj cfs) => ((objGet cfs "id").bind asStr).isSome
       | _ => false) &&
      (match objGet fs "videos" with
       | some (.arr _) => true
       | _ => false)
    | _ => false

/-- handleImportSessions (src/unnamed/part_001, lines 653-685) applied to a
    parsed JSON document: the `Array.isArray` check, the first-item shape
    validation, typing of the parsed elements, and the id-keyed merge in
    which imported entries overwrite existing ones.  `none` models the
    error/alert early returns. -/
def handleImportSessionsJson (savedSessions : List SavedSession) (doc : Json) :
    Option (List SavedSession) :=
  match doc with
  | .arr items =>
    if importedFirstItemValid items then
      match decodeAll jsonToSession items with
      | some importedSessions =>
        some (importMergeSessions savedSessions importedSessions)
      | none => none
    else none
  | _ => none

/-! ## Theorems -/

theorem mapGet_mapSet (m : SessionMap) (k k' : String) (v : SavedSession) :
    mapGet (mapSet m k v) k' = if k = k' then some v else mapGet m k' := by
  induction m with
  | nil => simp [mapSet, mapGet]
  | cons p m ih =>
    by_cases hp : p.1 = k
    · by_cases hk : k = k' <;> simp [mapSet, mapGet, hp, hk]
    · by_cases hk : k = k' <;> by_cases hp' : p.1 = k' <;>
        simp_all [mapSet, mapGet]

theorem mapKeys_mapSet (m : SessionMap) (k : String) (v : SavedSession) :
    (mapSet m k v).map Prod.fst =
      if k ∈ m.map Prod.fst then m.map Prod.fst else m.map Prod.fst ++ [k] := by
  induction m with
  | nil => simp [mapSet]
  | cons p m ih =>
    by_cases hp : p.1 = k
    · simp [mapSet, hp]
    · by_cases hk : k ∈ m.map Prod.fst <;>
        simp_all [mapSet, hp, Ne.symm hp]

theorem mapKeys_nodup_mapSet (m : SessionMap) (k : String) (v : SavedSession)
    (h : (m.map Prod.fst).Nodup) : ((mapSet m k v).map Prod.fst).Nodup := by
  rw [mapKeys_mapSet]
  by_cases hk : k ∈ m.map Prod.fst <;> simp_all [List.nodup_append]

theorem mapWF_mapSet (m : SessionMap) (v : SavedSession)
    (h : mapWF m) : mapWF (mapSet m v.id v) := by
  induction m with
  | nil => simp [mapSet, mapWF]
  | cons p m ih =>
    by_cases hp : p.1 = v.id
    · intro q hq
      rcases (by simpa [mapSet, hp] using hq) with hq | hq
      · simp [hq]
      · exact h q (List.mem_cons_of_mem _ hq)
    · intro q hq
      rcases (by simpa [mapSet, hp] using hq) with hq | hq
      · exact h q (by simp [hq])
      · exact ih (fun r hr => h r (List.mem_cons_of_mem _ hr)) q hq

theorem findId_mapValues (m : SessionMap) (hwf : mapWF m) (i : String) :
    findId (mapValues m) i = mapGet m i := by
  induction m with
  | nil => simp [findId, mapValues, mapGet]
  | cons p m ih =>
    have hp : p.2.id = p.1 := hwf p (List.mem_cons_self _ _)
    have hwf' : mapWF m := fun q hq => hwf q (List.mem_cons_of_mem _ hq)
    by_cases hk : p.1 = i
    · simp [findId, mapValues, mapGet, List.find?, hp, hk]
    · have : ¬ (p.2.id = i) := by rw [hp]; exact hk
      simpa [findId, mapValues, mapGet, List.find?, hp, hk, this] using ih hwf'

theorem mapValues_ids (m : SessionMap) (hwf : mapWF m) :
    (mapValues m).map (fun s => s.id) = m.map Prod.fst := by
  induction m with
  | nil => simp [mapValues]
  | cons p m ih =>
    have hp : p.2.id = p.1 := hwf p (List.mem_cons_self _ _)
    have hwf' : mapWF m := fun q hq => hwf q (List.mem_cons_of_mem _ hq)
    simpa [mapValues, hp] using ih hwf'

theorem idsNodup_mapValues (m : SessionMap) (hwf : mapWF m)
    (h : (m.map Prod.fst).Nodup) : idsNodup (mapValues m) := by
  unfold idsNodup
  rw [mapValues_ids m hwf]; exact h

theorem findId_cons (s : SavedSession) (L : List SavedSession) (k : String) :
    findId (s :: L) k = if s.id = k then some s else findId L k := by
  by_cases h : s.id = k <;> simp [findId, List.find?, h]

theorem findId_eq_none_of_not_mem (L : List SavedSession) (k : String)
    (h : k ∉ L.map (fun s => s.id)) : findId L k = none := by
  rw [findId, List.find?_eq_none]
  intro s hs hk
  exact h (List.mem_map.mpr ⟨s, hs, by simpa using hk⟩)

theorem mapGet_insertAll (L : List SavedSession) :
    ∀ m : SessionMap, idsNodup L → ∀ k,
      mapGet (insertAll m L) k = orO (findId L k) (mapGet m k) := by
  induction L with
  | nil => intro m _ k; simp [insertAll, findId, orO]
  | cons s L ih =>
    intro m hnd k
    have hnd' : idsNodup L := (List.nodup_cons.mp hnd).2
    have hs : s.id ∉ L.map (fun t => t.id) := (List.nodup_cons.mp hnd).1
    have hstep : insertAll m (s :: L) = insertAll (mapSet m s.id s) L := rfl
    rw [hstep, ih _ hnd' k, findId_cons]
    by_cases hk : s.id = k
    · have hLk : findId L k = none := by
        apply findId_eq_none_of_not_mem; rw [← hk]; exact hs
      simp [hLk, orO, hk, mapGet_mapSet]
    · rw [if_neg hk]
      cases hfl : findId L k with
      | some t => simp [orO, hfl]
      | none => simp [orO, hfl, mapGet_mapSet, hk]

theorem mapGet_insertCloud (m : SessionMap) (b : SavedSession) (k : String) :
    mapGet (insertCloud m b) k =
      if b.id = k then newerWins (mapGet m b.id) (some b) else mapGet m k := by
  cases hg : mapGet m b.id with
  | none =>
    have hm : insertCloud m b = mapSet m b.id b := by
      unfold insertCloud; rw [hg]
    rw [hm]
    by_cases hk : b.id = k <;> simp [mapGet_mapSet, hk, newerWins, hg]
  | some a =>
    have hm : insertCloud m b =
        if a.savedAt < b.savedAt then mapSet m b.id b else m := by
      unfold insertCloud; rw [hg]
    rw [hm]
    by_cases hlt : a.savedAt < b.savedAt
    · rw [if_pos hlt]
      by_cases hk : b.id = k <;> simp [mapGet_mapSet, hk, newerWins, hg, hlt]
    · rw [if_neg hlt]
      by_cases hk : b.id = k
      · subst hk; simp [newerWins, hg, hlt]
      · simp [hk]

theorem mapGet_foldl_insertCloud (B : List SavedSession) :
    ∀ m : SessionMap, idsNodup B → ∀ k,
      mapGet (B.foldl insertCloud m) k = newerWins (mapGet m k) (findId B k) := by
  induction B with
  | nil =>
    intro m _ k
    cases hg : mapGet m k <;> simp [findId, newerWins, hg]
  | cons b B ih =>
    intro m hnd k
    have hnd' : idsNodup B := (List.nodup_cons.mp hnd).2
    have hb : b.id ∉ B.map (fun t => t.id) := (List.nodup_cons.mp hnd).1
    have hstep : (b :: B).foldl insertCloud m = B.foldl insertCloud (insertCloud m b) := rfl
    rw [hstep, ih _ hnd' k, findId_cons]
    by_cases hk : b.id = k
    · have hBk : findId B k = none := by
        apply findId_eq_none_of_not_mem; rw [← hk]; exact hb
      subst hk
      rw [hBk, if_pos rfl, mapGet_insertCloud, if_pos rfl]
      cases mapGet m b.id <;> simp [newerWins]
    · rw [if_neg hk, mapGet_insertCloud, if_neg hk]

theorem mapWF_insertAll (L : List SavedSession) :
    ∀ m : SessionMap, mapWF m → mapWF (insertAll m L) := by
  induction L with
  | nil => intro m h; exact h
  | cons s L ih => intro m h; exact ih _ (mapWF_mapSet m s h)

theorem mapKeys_nodup_insertAll (L : List SavedSession) :
    ∀ m : SessionMap, (m.map Prod.fst).Nodup →
      ((insertAll m L).map Prod.fst).Nodup := by
  induction L with
  | nil => intro m h; exact h
  | cons s L ih => intro m h; exact ih _ (mapKeys_nodup_mapSet m s.id s h)

theorem mapWF_foldl_insertCloud (B : List SavedSession) :
    ∀ m : SessionMap, mapWF m → mapWF (B.foldl insertCloud m) := by
  induction B with
  | nil => intro m h; exact h
  | cons b B ih =>
    intro m h
    apply ih
    unfold insertCloud
    cases mapGet m b.id with
    | none => exact mapWF_mapSet m b h
    | some a =>
      by_cases hlt : a.savedAt < b.savedAt <;> simp [hlt]
      · exact mapWF_mapSet m b h
      · exact h

theorem mapKeys_nodup_foldl_insertCloud (B : List SavedSession) :
    ∀ m : SessionMap, (m.map Prod.fst).Nodup →
      ((B.foldl insertCloud m).map Prod.fst).Nodup := by
  induction B with
  | nil => intro m h; exact h
  | cons b B ih =>
    intro m h
    apply ih
    unfold insertCloud
    cases mapGet m b.id with
    | none => exact mapKeys_nodup_mapSet m b.id b h
    | some a =>
      by_cases hlt : a.savedAt < b.savedAt <;> simp [hlt]
      · exact mapKeys_nodup_mapSet m b.id b h
      · exact h

theorem mapWF_nil : mapWF [] := by
  intro p hp; cases hp

/-- C3: For all session collections A (existing library) and B (imported file),
the import operation produces exactly one session per channel id present in
A ∪ B (the merged list has pairwise-distinct ids, and an id is present in it
iff it is present in A or in B), and for every id present in both
collections, B's entry replaces A's regardless of their savedAt timestamps:
the entry found for any id i is B's entry when B has one, and A's otherwise. -/
theorem handleImportSessions_incoming_wins (A B : List SavedSession)
    (hA : idsNodup A) (hB : idsNodup B) :
    idsNodup (importMergeSessions A B) ∧
      ∀ i, findId (importMergeSessions A B) i = orO (findId B i) (findId A i) := by
  have hwfA : mapWF (insertAll [] A) := mapWF_insertAll A [] mapWF_nil
  have hwf : mapWF (insertAll (insertAll [] A) B) := mapWF_insertAll B _ hwfA
  have hndk : ((insertAll (insertAll [] A) B).map Prod.fst).Nodup :=
    mapKeys_nodup_insertAll B _ (mapKeys_nodup_insertAll A [] (by simp))
  constructor
  · exact idsNodup_mapValues _ hwf hndk
  · intro i
    unfold importMergeSessions
    rw [findId_mapValues _ hwf, mapGet_insertAll B _ hB, mapGet_insertAll A [] hA]
    cases findId B i <;> cases findId A i <;> simp [orO, mapGet]

/-- C3 witness: importing a file whose session for channel "a" has an older
savedAt than the library's entry still replaces it. -/
theorem handleImportSessions_incoming_wins_witness :
    findId (importMergeSessions [sampleSession "a" 9, sampleSession "b" 2]
      [sampleSession "a" 5]) "a" = some (sampleSession "a" 5) := by
  rw [(handleImportSessions_incoming_wins
    [sampleSession "a" 9, sampleSession "b" 2] [sampleSession "a" 5]
    (by decide) (by decide)).2 "a"]
  decide

/-- C2: For all session collections A (on-device/local) and B (cloud), the
cloud-sync reconciliation merge of syncData (src/unnamed/part_000) yields
exactly one entry per channel id present in A ∪ B (pairwise-distinct ids,
an id present iff present in A or in B), and for each id present in both it
keeps the entry with the newer savedAt timestamp (the cloud entry wins
exactly when strictly newer). -/
theorem syncData_merge_newer_wins (A B : List SavedSession)
    (hA : idsNodup A) (hB : idsNodup B) :
    idsNodup (syncDataMergeSessions A B) ∧
      ∀ i, findId (syncDataMergeSessions A B) i =
        newerWins (findId A i) (findId B i) := by
  have hwfA : mapWF (insertAll [] A) := mapWF_insertAll A [] mapWF_nil
  have hwf : mapWF (B.foldl insertCloud (insertAll [] A)) :=
    mapWF_foldl_insertCloud B _ hwfA
  have hndk : ((B.foldl insertCloud (insertAll [] A)).map Prod.fst).Nodup :=
    mapKeys_nodup_foldl_insertCloud B _
      (mapKeys_nodup_insertAll A [] (by simp))
  constructor
  · exact idsNodup_mapValues _ hwf hndk
  · intro i
    unfold syncDataMergeSessions
    rw [findId_mapValues _ hwf, mapGet_foldl_insertCloud B _ hB,
      mapGet_insertAll A [] hA]
    cases findId A i <;> cases findId B i <;> simp [orO, newerWins, mapGet]

/-- C2 witness: on a shared id the entry with the newer savedAt survives the
cloud-sync merge (here the local entry, being newer, is kept; the cloud-only
session is still present). -/
theorem syncData_merge_newer_wins_witness :
    findId (syncDataMergeSessions [sampleSession "a" 10]
        [sampleSession "a" 3, sampleSession "c" 7]) "a" =
      some (sampleSession "a" 10) ∧
    findId (syncDataMergeSessions [sampleSession "a" 10]
        [sampleSession "a" 3, sampleSession "c" 7]) "c" =
      some (sampleSession "c" 7) := by
  have h := syncData_merge_newer_wins [sampleSession "a" 10]
    [sampleSession "a" 3, sampleSession "c" 7] (by decide) (by decide)
  constructor
  · rw [h.2 "a"]; decide
  · rw [h.2 "c"]; decide

theorem jsonToChatMessage_roundtrip (m : ChatMessage) :
    jsonToChatMessage (chatMessageToJson m) = some m := by
  obtain ⟨r, c⟩ := m
  cases r <;> rfl

theorem jsonToVideo_roundtrip (v : Video) :
    jsonToVideo (videoToJson v) = some v := by
  obtain ⟨i, ⟨pa, ti⟩, ⟨vc, lc⟩, ⟨du⟩⟩ := v
  rfl

theorem jsonToChannelInfo_roundtrip (c : ChannelInfo) :
    jsonToChannelInfo (channelInfoToJson c) = some c := by
  obtain ⟨i, t, sc, vc⟩ := c
  rfl

theorem decodeAll_map_roundtrip {α : Type} (f : Json → Option α) (g : α → Json)
    (h : ∀ x, f (g x) = some x) (l : List α) :
    decodeAll f (l.map g) = some l := by
  induction l with
  | nil => rfl
  | cons x l ih => simp [decodeAll, h x, ih]

theorem jsonToSession_roundtrip (s : SavedSession) :
    jsonToSession (sessionToJson s) = some s := by
  obtain ⟨i, t, ci, vs, npt, bm⟩ := s
  cases npt <;> cases bm <;>
    simp [sessionToJson, jsonToSession, objGet, asStr, asNat,
      jsonToChannelInfo_roundtrip,
      decodeAll_map_roundtrip jsonToVideo videoToJson jsonToVideo_roundtrip,
      decodeAll_map_roundtrip jsonToChatMessage chatMessageToJson
        jsonToChatMessage_roundtrip]

theorem mapSet_append_of_fresh (m : SessionMap) (k : String) (v : SavedSession)
    (h : k ∉ m.map Prod.fst) : mapSet m k v = m ++ [(k, v)] := by
  induction m with
  | nil => rfl
  | cons p m ih =>
    have hp : ¬ (p.1 = k) := by
      intro hpk; exact h (by simp [hpk])
    have h' : k ∉ m.map Prod.fst := fun hk => h (by simp [hk])
    simp [mapSet, hp, ih h']

theorem insertAll_fresh (L : List SavedSession) :
    ∀ m : SessionMap, idsNodup L → (∀ s ∈ L, s.id ∉ m.map Prod.fst) →
      insertAll m L = m ++ L.map (fun s => (s.id, s)) := by
  induction L with
  | nil => intro m _ _; simp [insertAll]
  | cons s L ih =>
    intro m hnd hfresh
    have hnd' : idsNodup L := (List.nodup_cons.mp hnd).2
    have hs : s.id ∉ L.map (fun t => t.id) := (List.nodup_cons.mp hnd).1
    have hstep : insertAll m (s :: L) = insertAll (mapSet m s.id s) L := rfl
    rw [hstep, mapSet_append_of_fresh m s.id s (hfresh s (List.mem_cons_self _ _))]
    rw [ih (m ++ [(s.id, s)]) hnd' ?_]
    · simp
    · intro t ht
      simp only [List.map_append, List.mem_append]
      rintro (hmem | hmem)
      · exact hfresh t (List.mem_cons_of_mem _ ht) hmem
      · have : t.id = s.id := by simpa using hmem
        exact hs (this ▸ List.mem_map.mpr ⟨t, ht, rfl⟩)

theorem importMergeSessions_nil (L : List SavedSession) (h : idsNodup L) :
    importMergeSessions [] L = L := by
  unfold importMergeSessions
  rw [show insertAll [] ([] : List SavedSession) = [] from rfl]
  rw [insertAll_fresh L [] h (by simp)]
  simp only [mapValues, List.nil_append, List.map_map]
  have hcomp : (Prod.snd ∘ fun s : SavedSession => (s.id, s)) = id := rfl
  rw [hcomp, List.map_id]

/-- C9: For every session library L, exporting L to a JSON document and
re-importing that document into an empty library yields a session collection
equal, by id and content, to L.  (handleExportJson refuses to export an
empty library, so L is nonempty; L satisfies the library invariant of
unique channel ids.) -/
theorem export_import_roundtrip (L : List SavedSession)
    (hL : idsNodup L) (hne : L ≠ []) :
    (handleExportJson L).bind (handleImportSessionsJson []) = some L := by
  unfold handleExportJson
  rw [if_neg (by simpa using hne)]
  show handleImportSessionsJson [] (.arr (L.map sessionToJson)) = some L
  have hvalid : importedFirstItemValid (L.map sessionToJson) = true := by
    cases L with
    | nil => rfl
    | cons s L' =>
      obtain ⟨i, t, ci, vs, npt, bm⟩ := s
      obtain ⟨cii, cit, cisc, civc⟩ := ci
      cases npt <;> cases bm <;> rfl
  have hstep : handleImportSessionsJson [] (.arr (L.map sessionToJson)) =
      if importedFirstItemValid (L.map sessionToJson) = true then
        match decodeAll jsonToSession (L.map sessionToJson) with
        | some importedSessions => some (importMergeSessions [] importedSessions)
        | none => none
      else none := rfl
  rw [hstep, hvalid, if_pos rfl,
    decodeAll_map_roundtrip jsonToSession sessionToJson jsonToSession_roundtrip L]
  show some (importMergeSessions [] L) = some L
  rw [importMergeSessions_nil L hL]

/-- C9 witness: a concrete singleton library survives the export/import
round trip unchanged. -/
theorem export_import_roundtrip_witness :
    (handleExportJson [sampleSession "a" 1]).bind (handleImportSessionsJson [])
      = some [sampleSession "a" 1] :=
  export_import_roundtrip [sampleSession "a" 1] (by decide) (by decide)

/-- C1: On the one-time reconciliation that runs when an anonymous user
becomes authenticated (user present, not yet reconciled), if a remote record
already exists for the account, then after reconciliation the effective
session collection, config, and analysis state equal exactly the remote
record's contents (config defaulted field-wise from the initial config), and
no session present only in on-device storage is retained: no merge with
on-device data is performed. -/
theorem syncData_remote_wins (st : AppState) (cd : UserData)
    (hu : st.user.isSome = true) (hs : st.isDataSynced = false) :
    savedSessions (syncData st (some cd)) = cd.library_sessions.getD [] ∧
    appConfig (syncData st (some cd)) = spreadConfig initialConfig cd.app_settings ∧
    analysisState (syncData st (some cd)) = cd.analysis_state.getD initialAnalysisState ∧
    ∀ s ∈ st.localSavedSessions, s ∉ cd.library_sessions.getD [] →
      s ∉ savedSessions (syncData st (some cd)) := by
  have hred : syncData st (some cd) =
      { st with
        syncedSavedSessions := some (cd.library_sessions.getD [])
        syncedAnalysisState := some (cd.analysis_state.getD initialAnalysisState)
        syncedAppConfig := some (spreadConfig initialConfig cd.app_settings)
        isDataSynced := true } := by
    unfold syncData
    rw [hu, hs]
    rfl
  rw [hred]
  refine ⟨?_, ?_, ?_, ?_⟩
  · simp [savedSessions, isLoggedIn, hu]
  · simp [appConfig, isLoggedIn, hu]
  · simp [analysisState, isLoggedIn, hu]
  · intro s _ hnot
    simpa [savedSessions, isLoggedIn, hu] using hnot

/-- C1 witness: a concrete logged-in, unreconciled state with one local-only
session; after reconciliation the effective library is exactly the cloud's,
the local-only session is gone, and the partial cloud settings are defaulted
field-wise from initialConfig. -/
theorem syncData_remote_wins_witness :
    savedSessions (syncData witnessLocalState (some witnessCloudData)) =
      [sampleSession "c" 5] ∧
    sampleSession "local" 1 ∉
      savedSessions (syncData witnessLocalState (some witnessCloudData)) ∧
    appConfig (syncData witnessLocalState (some witnessCloudData)) =
      { initialConfig with theme := .green } := by
  have h := syncData_remote_wins witnessLocalState witnessCloudData rfl rfl
  refine ⟨?_, ?_, ?_⟩
  · rw [h.1]; decide
  · exact h.2.2.2 (sampleSession "local" 1) (by decide) (by decide)
  · rw [h.2.1]; decide

theorem applyWrite_frame (st : AppState) (w : AppWrite)
    (hu : st.user.isSome = true) :
    (applyWrite st w).localAppConfig = st.localAppConfig ∧
    (applyWrite st w).localSavedSessions = st.localSavedSessions ∧
    (applyWrite st w).localAnalysisState = st.localAnalysisState ∧
    (applyWrite st w).user = st.user := by
  cases w <;>
    simp [applyWrite, setAppConfig, setSavedSessions, setAnalysisState,
      isLoggedIn, hu]

theorem foldl_applyWrite_frame (ws : List AppWrite) :
    ∀ st : AppState, st.user.isSome = true →
      (ws.foldl applyWrite st).localAppConfig = st.localAppConfig ∧
      (ws.foldl applyWrite st).localSavedSessions = st.localSavedSessions ∧
      (ws.foldl applyWrite st).localAnalysisState = st.localAnalysisState ∧
      (ws.foldl applyWrite st).user = st.user := by
  induction ws with
  | nil => intro st _; exact ⟨rfl, rfl, rfl, rfl⟩
  | cons w ws ih =>
    intro st hu
    have hw := applyWrite_frame st w hu
    have hu' : (applyWrite st w).user.isSome = true := by rw [hw.2.2.2]; exact hu
    have hrest := ih (applyWrite st w) hu'
    exact ⟨hrest.1.trans hw.1, hrest.2.1.trans hw.2.1,
      hrest.2.2.1.trans hw.2.2.1, hrest.2.2.2.trans hw.2.2.2⟩

/-- C7: While a user is authenticated, every write through the unified
setters targets only the in-memory mirror and never the on-device store (the
three local stores are unchanged by any sequence of writes); on transition
back to anonymous the mirror and the synced flag are discarded, so a
subsequent read returns exactly the on-device config, sessions, and analysis
state as they stood before sign-in. -/
theorem signout_restores_local (st : AppState) (ws : List AppWrite)
    (hu : st.user.isSome = true) :
    (ws.foldl applyWrite st).localAppConfig = st.localAppConfig ∧
    (ws.foldl applyWrite st).localSavedSessions = st.localSavedSessions ∧
    (ws.foldl applyWrite st).localAnalysisState = st.localAnalysisState ∧
    (onAuthChange (ws.foldl applyWrite st) none).syncedAppConfig = none ∧
    (onAuthChange (ws.foldl applyWrite st) none).syncedSavedSessions = none ∧
    (onAuthChange (ws.foldl applyWrite st) none).syncedAnalysisState = none ∧
    (onAuthChange (ws.foldl applyWrite st) none).isDataSynced = false ∧
    appConfig (onAuthChange (ws.foldl applyWrite st) none) = st.localAppConfig ∧
    savedSessions (onAuthChange (ws.foldl applyWrite st) none) = st.localSavedSessions ∧
    analysisState (onAuthChange (ws.foldl applyWrite st) none) = st.localAnalysisState := by
  have hframe := foldl_applyWrite_frame ws st hu
  have hu1 : (ws.foldl applyWrite st).user.isSome = true := by
    rw [hframe.2.2.2]; exact hu
  have hauth : onAuthChange (ws.foldl applyWrite st) none =
      reload (ws.foldl applyWrite st) := by
    unfold onAuthChange
    rw [hu1]
    rfl
  rw [hauth]
  refine ⟨hframe.1, hframe.2.1, hframe.2.2.1, rfl, rfl, rfl, rfl, ?_, ?_, ?_⟩
  · simp [appConfig, isLoggedIn, reload, hframe.1]
  · simp [savedSessions, isLoggedIn, reload, hframe.2.1]
  · simp [analysisState, isLoggedIn, reload, hframe.2.2.1]

/-- C7 witness: a logged-in state performs a config write and a session
write; sign-out discards the mirror and reads return the pre-sign-in local
data. -/
theorem signout_restores_local_witness :
    savedSessions (onAuthChange
      ([AppWrite.config (fun c => { c with aiModel := "gemini-2.5-flash" }),
        AppWrite.sessions (fun l => sampleSession "new" 9 :: l)].foldl
        applyWrite witnessLocalState) none) = [sampleSession "local" 1] ∧
    ([AppWrite.config (fun c => { c with aiModel := "gemini-2.5-flash" }),
      AppWrite.sessions (fun l => sampleSession "new" 9 :: l)].foldl
      applyWrite witnessLocalState).localSavedSessions =
        [sampleSession "local" 1] := by
  have h := signout_restores_local witnessLocalState
    [AppWrite.config (fun c => { c with aiModel := "gemini-2.5-flash" }),
     AppWrite.sessions (fun l => sampleSession "new" 9 :: l)] rfl
  exact ⟨h.2.2.2.2.2.2.2.2.1, h.2.1⟩

/-- C10: For every call of the competitive-analysis start operation with a
list of fewer than 2 selected channel ids, the operation returns immediately
as a no-op: the whole App state (hence analysis state, session collection,
and config) is unchanged and no provider request is issued; additionally the
modal's start handler does not invoke the analysis and the start button is
disabled below 2 selections. -/
theorem competitive_analysis_min_two (st : AppState) (ids : List String)
    (r : Except String String) (h : ids.length < 2) :
    handleStartCompetitiveAnalysis st ids r = (st, none) ∧
    (handleStartAndClose ids).2 = false ∧
    startButtonDisabled ids = true := by
  refine ⟨?_, ?_, ?_⟩
  · unfold handleStartCompetitiveAnalysis; rw [if_pos h]
  · unfold handleStartAndClose; rw [if_pos h]
  · unfold startButtonDisabled; simp [h]

/-- C10 witness: with a single selected channel the start operation is a
no-op, the modal refuses to start, and the button is disabled. -/
theorem competitive_analysis_min_two_witness :
    handleStartCompetitiveAnalysis witnessLocalState ["ch1"] (.ok "kq") =
      (witnessLocalState, none) ∧
    (handleStartAndClose ["ch1"]).2 = false ∧
    startButtonDisabled ["ch1"] = true :=
  competitive_analysis_min_two witnessLocalState ["ch1"] (.ok "kq") (by decide)

theorem rotateLoop_skip_errors {T : Type} (req : String → Except String T) :
    ∀ (ks1 : List String) (k : String) (ks2 : List String) (v : T) (e0 : String),
      (∀ k' ∈ ks1, ∃ e, req k' = .error e) → req k = .ok v →
      rotateLoop req (ks1 ++ k :: ks2) e0 = .ok v := by
  intro ks1
  induction ks1 with
  | nil => intro k ks2 v e0 _ hok; simp [rotateLoop, hok]
  | cons a ks1 ih =>
    intro k ks2 v e0 hfail hok
    obtain ⟨e, he⟩ := hfail a (List.mem_cons_self _ _)
    have hred : rotateLoop req ((a :: ks1) ++ k :: ks2) e0 =
        rotateLoop req (ks1 ++ k :: ks2) e := by
      simp [rotateLoop, he]
    rw [hred]
    exact ih k ks2 v e (fun k' hk' => hfail k' (List.mem_cons_of_mem _ hk')) hok

theorem rotateLoop_all_fail {T : Type} (req : String → Except String T)
    (errf : String → String) :
    ∀ (ks : List String) (k0 : String) (e0 : String),
      (∀ k ∈ k0 :: ks, req k = .error (errf k)) →
      rotateLoop req (k0 :: ks) e0 = .error (allFailedMsg (errf (lastKey k0 ks))) := by
  intro ks
  induction ks with
  | nil =>
    intro k0 e0 h
    have h0 := h k0 (List.mem_cons_self _ _)
    simp [rotateLoop, h0, lastKey]
  | cons k1 ks ih =>
    intro k0 e0 h
    have h0 := h k0 (List.mem_cons_self _ _)
    have hred : rotateLoop req (k0 :: k1 :: ks) e0 =
        rotateLoop req (k1 :: ks) (errf k0) := by
      simp [rotateLoop, h0]
    rw [hred]
    exact ih k1 (errf k0) (fun k hk => h k (List.mem_cons_of_mem _ hk))

/-- C4: For every key-rotation call whose parsed key list contains a key k
whose attempt succeeds, with every key before k failing, the call returns
k's successful result (keys attempted strictly in order; the caller
observes no error from earlier failed keys); and if every parsed key's
attempt fails, the call fails surfacing the last encountered error. -/
theorem executeWithKeyRotation_rotation (T : Type)
    (req : String → Except String T) (s : String) :
    (∀ (ks1 : List String) (k : String) (ks2 : List String) (v : T),
      parseKeys s = ks1 ++ k :: ks2 →
      (∀ k' ∈ ks1, ∃ e, req k' = .error e) →
      req k = .ok v →
      executeWithKeyRotation s req = .ok v) ∧
    (∀ (k0 : String) (ks : List String) (errf : String → String),
      parseKeys s = k0 :: ks →
      (∀ k ∈ k0 :: ks, req k = .error (errf k)) →
      executeWithKeyRotation s req =
        .error (allFailedMsg (errf (lastKey k0 ks)))) := by
  constructor
  · intro ks1 k ks2 v hp hfail hok
    have hne : (ks1 ++ k :: ks2).length ≠ 0 := by simp
    simp only [executeWithKeyRotation, hp]
    rw [if_neg hne]
    exact rotateLoop_skip_errors req ks1 k ks2 v "" hfail hok
  · intro k0 ks errf hp hfail
    have hne : (k0 :: ks).length ≠ 0 := by simp
    simp only [executeWithKeyRotation, hp]
    rw [if_neg hne]
    exact rotateLoop_all_fail req errf ks k0 "" hfail

/-- C4 witness: with keys "k1invalid,k2valid" where only the second key
succeeds, the call returns the second key's result. -/
theorem executeWithKeyRotation_rotation_witness :
    executeWithKeyRotation "k1invalid,k2valid" reqW = .ok 2 :=
  (executeWithKeyRotation_rotation Nat reqW "k1invalid,k2valid").1
    ["k1invalid"] "k2valid" [] 2 (by decide)
    (fun k' hk' => ⟨"lỗi " ++ k', by
      have hk : k' = "k1invalid" := by simpa using hk'
      rw [hk]; rfl⟩)
    rfl

/-- C5: For every input key string parsing to zero keys, the key-rotation
call fails immediately with the fixed 'no keys provided' error, for every
request environment alike (so no key is ever attempted), and that error is
distinguishable from every all-keys-failed error. -/
theorem executeWithKeyRotation_no_keys (T : Type)
    (req req2 : String → Except String T) (s : String)
    (h : parseKeys s = []) :
    executeWithKeyRotation s req = .error noKeysMsg ∧
    executeWithKeyRotation s req = executeWithKeyRotation s req2 ∧
    ∀ e, noKeysMsg ≠ allFailedMsg e := by
  have h1 : executeWithKeyRotation s req = .error noKeysMsg := by
    simp [executeWithKeyRotation, h]
  have h2 : executeWithKeyRotation s req2 = .error noKeysMsg := by
    simp [executeWithKeyRotation, h]
  refine ⟨h1, h1.trans h2.symm, ?_⟩
  intro e heq
  have hlen := congrArg String.length heq
  rw [show allFailedMsg e =
      "Tất cả API key của Gemini đều không hợp lệ. Lỗi cuối cùng: " ++ e from rfl,
    String.length_append] at hlen
  have ha : noKeysMsg.length = 42 := rfl
  have hb : ("Tất cả API key của Gemini đều không hợp lệ. Lỗi cuối cùng: " :
      String).length = 59 := rfl
  omega

/-- C5 witness: a key blob of separators and blanks parses to zero keys and
fails with the fixed message without consulting the request environment. -/
theorem executeWithKeyRotation_no_keys_witness :
    executeWithKeyRotation " ,\n " reqW = .error noKeysMsg :=
  (executeWithKeyRotation_no_keys Nat reqW reqW " ,\n " (by decide)).1

/-- C8: parseISO8601Duration maps "PT1H2M3S" to "01:02:03", "PT5M" to
"05:00", and every input string matching no duration component to "00:00". -/
theorem parseISO8601Duration_spec :
    parseISO8601Duration "PT1H2M3S" = "01:02:03" ∧
    parseISO8601Duration "PT5M" = "05:00" ∧
    ∀ s, matchesNoComponent s → parseISO8601Duration s = "00:00" := by
  refine ⟨by decide, by decide, ?_⟩
  intro s h
  unfold parseISO8601Duration
  cases hm : matchDuration s.data with
  | none => rfl
  | some g =>
    obtain ⟨ho, mo, so⟩ := g
    have h' : ho = none ∧ mo = none ∧ so = none := by
      unfold matchesNoComponent at h
      rw [hm] at h
      exact h
    obtain ⟨h1, h2, h3⟩ := h'
    subst h1; subst h2; subst h3
    rfl

/-- C8 witness: a string containing no "PT" parses to "00:00". -/
theorem parseISO8601Duration_spec_witness :
    parseISO8601Duration "xin chào" = "00:00" :=
  parseISO8601Duration_spec.2.2 "xin chào" (by decide)

theorem runEdits_quiet (rest : List (Nat × SyncedSnapshot)) :
    ∀ (t0 : Nat) (s0 : SyncedSnapshot) (w : List SyncedSnapshot),
      List.Chain (fun a b => a.1 < b.1 ∧ b.1 < a.1 + 2000) (t0, s0) rest →
      runEdits { pending := some (t0 + 2000, s0), writes := w } rest =
        { pending := some ((lastEdit (t0, s0) rest).1 + 2000,
                           (lastEdit (t0, s0) rest).2), writes := w } := by
  induction rest with
  | nil => intro t0 s0 w _; rfl
  | cons e rest ih =>
    intro t0 s0 w hch
    obtain ⟨t1, s1⟩ := e
    rw [List.chain_cons] at hch
    obtain ⟨⟨hlt, hwin⟩, hch'⟩ := hch
    have hnot : ¬ (t0 + 2000 ≤ t1) := by omega
    have hstep : stepEdit { pending := some (t0 + 2000, s0), writes := w } t1 s1 =
        { pending := some (t1 + 2000, s1), writes := w } := by
      simp [stepEdit, hnot]
    have hrun : runEdits { pending := some (t0 + 2000, s0), writes := w }
        ((t1, s1) :: rest) =
        runEdits (stepEdit { pending := some (t0 + 2000, s0), writes := w } t1 s1)
          rest := rfl
    rw [hrun, hstep]
    exact ih t1 s1 w hch'

/-- C6: For every sequence of N ≥ 1 edits made while authenticated and
synced, each arriving within the 2-second debounce window of the previous
one (strictly increasing times, gaps under 2000 ms), no remote write is
issued while the edits arrive, and once the timer fires 2000 ms after the
last edit exactly one remote write has been issued, carrying the state as it
stood after the final edit; moreover an edit arriving before the pending
timer's deadline cancels and restarts the timer without issuing a write. -/
theorem debounced_flush_single_write (e0 : Nat × SyncedSnapshot)
    (rest : List (Nat × SyncedSnapshot))
    (hch : List.Chain (fun a b => a.1 < b.1 ∧ b.1 < a.1 + 2000) e0 rest) :
    (runEdits debounceInit (e0 :: rest)).writes = [] ∧
    (flushAt (runEdits debounceInit (e0 :: rest))
        ((lastEdit e0 rest).1 + 2000)).writes = [(lastEdit e0 rest).2] ∧
    ∀ (d : DebounceState) (ft : Nat) (snap : SyncedSnapshot) (t : Nat)
        (s : SyncedSnapshot),
      d.pending = some (ft, snap) → t < ft →
      (stepEdit d t s).pending = some (t + 2000, s) ∧
        (stepEdit d t s).writes = d.writes := by
  obtain ⟨t0, s0⟩ := e0
  have hinit : runEdits debounceInit ((t0, s0) :: rest) =
      runEdits { pending := some (t0 + 2000, s0), writes := [] } rest := rfl
  have hq := runEdits_quiet rest t0 s0 [] hch
  refine ⟨?_, ?_, ?_⟩
  · rw [hinit, hq]
  · rw [hinit, hq]
    simp [flushAt]
  · intro d ft snap t s hp hlt
    have hnot : ¬ (ft ≤ t) := by omega
    constructor <;> simp [stepEdit, hp, hnot]

/-- C6 witness: two edits 1000 ms apart produce no write until the quiet
period ends, then exactly one write carrying the second edit's state. -/
theorem debounced_flush_single_write_witness :
    (runEdits debounceInit [(0, sampleSnapshot 1), (1000, sampleSnapshot 2)]).writes
      = [] ∧
    (flushAt (runEdits debounceInit
        [(0, sampleSnapshot 1), (1000, sampleSnapshot 2)]) 3000).writes
      = [sampleSnapshot 2] := by
  have h := debounced_flush_single_write (0, sampleSnapshot 1)
    [(1000, sampleSnapshot 2)]
    (List.Chain.cons ⟨by decide, by decide⟩ List.Chain.nil)
  exact ⟨h.1, h.2.1⟩

end YT
